import Mathlib

/-!
# Verification of the pending-edit buffer and reconciliation engine

Shallow embedding of the pending-change ledger, projection, reconciliation and
commit logic of `src/react-app/pages/HistorySummary.tsx` (a workout-logging
application).  The TypeScript component keeps a `pendingChanges` record of
uncommitted mutations (JavaScript `Map`s keyed by entity id), projects them
over the last-fetched workout snapshot for display, survives a navigation
round trip through a `sessionStorage` blob, filters restored changes against a
freshly fetched snapshot, and drains the ledger against per-entity REST
endpoints in a fixed stage order.

Modelling conventions:
* JavaScript `Map`s are modelled as association lists with the `Map.set`
  replacement semantics (`mapSet` replaces the value in place when the key is
  already present, otherwise appends) and `Map.delete` as `mapDelete`.
* Numeric payload fields (`weight_lbs`, `reps`, ...) are modelled as `Int`;
  no verified property depends on their arithmetic.  Unit conversion
  (`convertWeightToStorage`) is an external collaborator and is passed in as a
  function argument.
* The string keys `"{exerciseId}-{tempId}"` of `pendingChanges.newSets` are
  modelled as pairs `(exerciseId, tempId)`; the component only builds such
  keys with a non-negative `exerciseId` (negative ids are rejected by
  `handleAddSet`), for which the string encoding round-trips.
* Remote calls are modelled by an oracle `remote : RemoteOp → Bool` telling
  whether a given request succeeds; the commit loop aborts on the first
  failing request, which the code signals by throwing an error naming the
  operation (modelled as `Except RemoteOp`).
-/

namespace FitMocha

/-! ## Association lists with JavaScript `Map` semantics -/

/-- `Map.set k v`: replace the value at `k` in place, or append `(k, v)`. -/
def mapSet [DecidableEq α] (k : α) (v : β) : List (α × β) → List (α × β)
  | [] => [(k, v)]
  | kv :: rest => if kv.1 = k then (k, v) :: rest else kv :: mapSet k v rest

/-- `Map.get k`: the value at the first occurrence of key `k`, if any. -/
def mapGet [DecidableEq α] (k : α) : List (α × β) → Option β
  | [] => none
  | kv :: rest => if kv.1 = k then some kv.2 else mapGet k rest

/-- `Map.delete k`: remove entries with key `k`. -/
def mapDelete [DecidableEq α] (k : α) (m : List (α × β)) : List (α × β) :=
  m.filter (fun kv => kv.1 ≠ k)

theorem mapGet_mapSet_self [DecidableEq α] (k : α) (v : β) (m : List (α × β)) :
    mapGet k (mapSet k v m) = some v := by
  induction m with
  | nil => simp [mapSet, mapGet]
  | cons kv rest ih =>
    by_cases h : kv.1 = k
    · simp [mapSet, mapGet, h]
    · simp [mapSet, mapGet, h, ih]

theorem mapGet_mapDelete_self [DecidableEq α] (k : α) (m : List (α × β)) :
    mapGet k (mapDelete k m) = none := by
  induction m with
  | nil => simp [mapDelete, mapGet]
  | cons kv rest ih =>
    by_cases h : kv.1 = k
    · simpa [mapDelete, h] using ih
    · simpa [mapDelete, mapGet, h] using ih

/-- Keys of `mapSet`: unchanged when the key was present, else extended by it. -/
theorem keys_mapSet [DecidableEq α] (k : α) (v : β) (m : List (α × β)) :
    (mapSet k v m).map Prod.fst =
      if k ∈ m.map Prod.fst then m.map Prod.fst else m.map Prod.fst ++ [k] := by
  induction m with
  | nil => simp [mapSet]
  | cons kv rest ih =>
    by_cases h : kv.1 = k
    · simp [mapSet, h]
    · have h' : ¬ k = kv.1 := fun hk => h hk.symm
      by_cases hk : k ∈ rest.map Prod.fst <;> simp [mapSet, h, ih, h', hk]

/-- Keys of `mapDelete`: the old keys with `k` filtered out. -/
theorem keys_mapDelete [DecidableEq α] (k : α) (m : List (α × β)) :
    (mapDelete k m).map Prod.fst = (m.map Prod.fst).filter (fun a => a ≠ k) := by
  induction m with
  | nil => simp [mapDelete]
  | cons kv rest ih =>
    by_cases hq : kv.1 = k <;> simp [mapDelete, List.filter_cons, hq] at ih ⊢ <;>
      simpa [mapDelete] using ih

/-- `Map.set` preserves distinctness of keys. -/
theorem nodup_keys_mapSet [DecidableEq α] (k : α) (v : β) (m : List (α × β))
    (h : (m.map Prod.fst).Nodup) : ((mapSet k v m).map Prod.fst).Nodup := by
  rw [keys_mapSet]
  by_cases hk : k ∈ m.map Prod.fst
  · simpa [hk]
  · rw [if_neg hk]
    refine List.Nodup.append h (List.nodup_singleton k) ?_
    intro a ha hak
    have : a = k := by simpa using hak
    exact hk (this ▸ ha)

/-- `Map.delete` preserves distinctness of keys. -/
theorem nodup_keys_mapDelete [DecidableEq α] (k : α) (m : List (α × β))
    (h : (m.map Prod.fst).Nodup) : ((mapDelete k m).map Prod.fst).Nodup := by
  rw [keys_mapDelete]
  exact h.filter _

/-- Membership after `mapSet`: an entry is the new one or an old one. -/
theorem mem_mapSet [DecidableEq α] {k : α} {v : β} {m : List (α × β)} {e : α × β}
    (h : e ∈ mapSet k v m) : e = (k, v) ∨ e ∈ m := by
  induction m with
  | nil => simpa [mapSet] using h
  | cons kv rest ih =>
    by_cases hq : kv.1 = k
    · simp [mapSet, hq] at h
      rcases h with h | h
      · exact Or.inl (by simp [h])
      · exact Or.inr (by simp [h])
    · simp [mapSet, hq] at h
      rcases h with h | h
      · exact Or.inr (by simp [h])
      · rcases ih h with h' | h'
        · exact Or.inl h'
        · exact Or.inr (by simp [h'])

/-- A fresh-key `Map.set` is an append at the end. -/
theorem mapSet_fresh [DecidableEq α] {k : α} (v : β) {m : List (α × β)}
    (h : k ∉ m.map Prod.fst) : mapSet k v m = m ++ [(k, v)] := by
  induction m with
  | nil => simp [mapSet]
  | cons kv rest ih =>
    simp at h
    have hq : ¬ kv.1 = k := fun hq => h.1 hq.symm
    have hmem : k ∉ rest.map Prod.fst := by
      simp
      intro x hx
      exact h.2 x hx
    simp [mapSet, hq, ih hmem]

/-! ## Data model (interfaces of `HistorySummary.tsx`) -/

/-- `interface WorkoutSet` of `HistorySummary.tsx`. -/
structure WorkoutSet where
  id : Int
  workout_exercise_id : Int
  set_number : Int
  weight_lbs : Option Int := none
  reps : Option Int := none
  duration_seconds : Option Int := none
  distance_miles : Option Int := none
  notes : Option String := none
  completed_at : Option String := none
deriving Repr, DecidableEq

/-- `interface WorkoutExercise` of `HistorySummary.tsx`. -/
structure WorkoutExercise where
  id : Int
  workout_id : Int
  exercise_id : Int
  order_index : Int
  name : String
  category : String
  muscle_group : String
  equipment : String
  video_url : Option String := none
  sets : List WorkoutSet := []
deriving Repr, DecidableEq

/-- `interface WorkoutSummary` of `HistorySummary.tsx`. -/
structure WorkoutSummary where
  id : Int
  name : Option String := none
  notes : Option String := none
  started_at : String := ""
  completed_at : String := ""
  duration_minutes : Int := 0
  intensity_level : Option Int := none
  exercises : List WorkoutExercise := []
deriving Repr, DecidableEq

/-- The fields written by `handleUpdateSet` (the `updatedSetData` object:
`weight_lbs`, `reps`, `notes`, each possibly `undefined` but always present,
so the JS spread overlay replaces all three). -/
structure SetPatch where
  weight_lbs : Option Int := none
  reps : Option Int := none
  notes : Option String := none
deriving Repr, DecidableEq

/-- `{ ...set, ...pendingChange.setData }` for an `updatedSetData` overlay:
the three keys are always present on `setData`, so they always override. -/
def applySetPatch (s : WorkoutSet) (p : SetPatch) : WorkoutSet :=
  { s with weight_lbs := p.weight_lbs, reps := p.reps, notes := p.notes }

/-- `interface PendingSetChange` (tagged record with `type: 'edit' | 'delete'`;
the declared `'add'` tag is never constructed by the component). -/
inductive PendingSetChange where
  | edit (setData : SetPatch) (originalSet : WorkoutSet)
  | delete
deriving Repr, DecidableEq

/-- `interface PendingExerciseChange` (`type: 'delete' | 'replace'`). -/
inductive PendingExerciseChange where
  | delete
  | replace (newExerciseId : Option Int) (newExerciseName : Option String)
deriving Repr, DecidableEq

/-- `interface PendingNewExercise` (`tempId` is a decimal string; modelled
as the number it denotes). -/
structure PendingNewExercise where
  exerciseId : Int
  name : String
  category : String
  muscle_group : String
  equipment : String
  video_url : Option String := none
  tempId : Nat
deriving Repr, DecidableEq

/-- `Omit<WorkoutSet, 'id'>`: the payload of a pending new set. -/
structure NewSetData where
  workout_exercise_id : Int
  set_number : Int
  weight_lbs : Option Int := none
  reps : Option Int := none
  duration_seconds : Option Int := none
  distance_miles : Option Int := none
  notes : Option String := none
  completed_at : Option String := none
deriving Repr, DecidableEq

/-- Attach an id to a pending new set (the `{ ...setData, id: ... }` spread in
`getDisplaySets`). -/
def NewSetData.withId (d : NewSetData) (i : Int) : WorkoutSet :=
  { id := i, workout_exercise_id := d.workout_exercise_id,
    set_number := d.set_number, weight_lbs := d.weight_lbs, reps := d.reps,
    duration_seconds := d.duration_seconds, distance_miles := d.distance_miles,
    notes := d.notes, completed_at := d.completed_at }

/-- `Partial<WorkoutSummary>` as built by the header-edit handlers
(`handleSaveTitle`, `handleSaveDuration`, `handleSaveIntensity`,
`handleSaveNotes`): a field is `some` when the key is present.  `notes` may be
present with value `null`, hence the nested option. -/
structure WorkoutPatch where
  name : Option String := none
  notes : Option (Option String) := none
  started_at : Option String := none
  completed_at : Option String := none
  duration_minutes : Option Int := none
  intensity_level : Option Int := none
deriving Repr, DecidableEq

/-- `Object.keys(pendingChanges.workout).length > 0`. -/
def WorkoutPatch.hasKeys (p : WorkoutPatch) : Bool :=
  p.name.isSome || p.notes.isSome || p.started_at.isSome ||
    p.completed_at.isSome || p.duration_minutes.isSome || p.intensity_level.isSome

/-- `interface PendingChanges` (the Change Ledger).  Each JS `Map` is an
association list in insertion order; `newSets` keys `"{eid}-{tempId}"` are
pairs. -/
structure PendingChanges where
  workout : Option WorkoutPatch := none
  sets : List (Int × PendingSetChange) := []
  exercises : List (Int × PendingExerciseChange) := []
  newSets : List ((Int × Nat) × NewSetData) := []
  newExercises : List (Nat × PendingNewExercise) := []
deriving Repr, DecidableEq

/-- The reset value `{ sets: new Map(), exercises: new Map(), newSets: new
Map(), newExercises: new Map() }` used on fetch, save and discard. -/
def emptyPendingChanges : PendingChanges := {}

/-- `hasPendingChanges()`. -/
def hasPendingChanges (pc : PendingChanges) : Bool :=
  pc.sets.length > 0 || pc.exercises.length > 0 || pc.newSets.length > 0 ||
    pc.newExercises.length > 0 ||
    (match pc.workout with
     | some p => p.hasKeys
     | none => false)

/-! ## Projection Engine (`getDisplaySets`, `getDisplayExercises`, header overlay) -/

/-- Stable insertion of a set into a list sorted by `set_number` (ascending);
together with `sortBySetNumber` this models the stable
`sets.sort((a, b) => a.set_number - b.set_number)`. -/
def insertBySetNumber (s : WorkoutSet) : List WorkoutSet → List WorkoutSet
  | [] => [s]
  | t :: rest =>
      if s.set_number ≤ t.set_number then s :: t :: rest
      else t :: insertBySetNumber s rest

/-- Stable sort by `set_number` ascending. -/
def sortBySetNumber : List WorkoutSet → List WorkoutSet
  | [] => []
  | s :: rest => insertBySetNumber s (sortBySetNumber rest)

/-- The `sets` local of `getDisplaySets`: the snapshot's sets for the
exercise with pending edits overlaid and pending deletes dropped. -/
def displaySetsBase (pc : PendingChanges) (exercise : WorkoutExercise) :
    List WorkoutSet :=
  (exercise.sets.map (fun s =>
    match mapGet s.id pc.sets with
    | some (.edit d _) => applySetPatch s d
    | _ => s)).filter (fun s =>
    match mapGet s.id pc.sets with
    | some .delete => false
    | _ => true)

/-- The `newSetsForExercise` local of `getDisplaySets`: pending new sets
keyed `"{exercise.id}-{tempId}"`, given their negated temp id. -/
def newSetsForExercise (pc : PendingChanges) (exercise : WorkoutExercise) :
    List WorkoutSet :=
  (pc.newSets.filter (fun kv => kv.1.1 = exercise.id)).map
    (fun kv => kv.2.withId (-(Int.ofNat kv.1.2)))

/-- `getDisplaySets(exercise)`: overlay pending edits, drop pending deletes,
append pending new sets for this exercise (with negated temp id), then sort
by sequence number. -/
def getDisplaySets (pc : PendingChanges) (exercise : WorkoutExercise) :
    List WorkoutSet :=
  sortBySetNumber (displaySetsBase pc exercise ++ newSetsForExercise pc exercise)

/-- The overlay `getDisplayExercises` applies to an existing exercise:
a `replace` entry with a truthy `newExerciseName` substitutes the display
name, and the exercise id when `newExerciseId` is truthy. -/
def applyExerciseOverlay (pc : PendingChanges) (exercise : WorkoutExercise) :
    WorkoutExercise :=
  match mapGet exercise.id pc.exercises with
  | some (.replace newId newName) =>
      match newName with
      | some n =>
          if n = "" then exercise
          else
            { exercise with
              name := n,
              exercise_id :=
                match newId with
                | some i => if i = 0 then exercise.exercise_id else i
                | none => exercise.exercise_id }
      | none => exercise
  | _ => exercise

/-- `getDisplayExercises()`: overlay replacements, drop pending deletes, then
append pending new exercises (negated temp ids, positioned after the existing
ones in ledger-insertion order). -/
def getDisplayExercises (workout : Option WorkoutSummary) (pc : PendingChanges) :
    List WorkoutExercise :=
  match workout with
  | none => []
  | some w =>
    let existingExercises :=
      (w.exercises.map (applyExerciseOverlay pc)).filter (fun ex =>
        match mapGet ex.id pc.exercises with
        | some .delete => false
        | _ => true)
    let newExercises := (pc.newExercises.map Prod.snd).enum.map
      (fun ie =>
        { id := -(Int.ofNat ie.2.tempId),
          workout_id := w.id,
          exercise_id := ie.2.exerciseId,
          order_index := Int.ofNat (existingExercises.length + ie.1),
          name := ie.2.name,
          category := ie.2.category,
          muscle_group := ie.2.muscle_group,
          equipment := ie.2.equipment,
          video_url := ie.2.video_url,
          sets := [] : WorkoutExercise })
    existingExercises ++ newExercises

/-- The header overlay `{ ...data, ...savedPendingChanges.workout }`: fields
present on the patch override the snapshot field-by-field. -/
def applyWorkoutPatch (w : WorkoutSummary) (patch : Option WorkoutPatch) :
    WorkoutSummary :=
  match patch with
  | none => w
  | some p =>
    { w with
      name := match p.name with
        | some n => some n
        | none => w.name,
      notes := match p.notes with
        | some n => n
        | none => w.notes,
      started_at := p.started_at.getD w.started_at,
      completed_at := p.completed_at.getD w.completed_at,
      duration_minutes := p.duration_minutes.getD w.duration_minutes,
      intensity_level := match p.intensity_level with
        | some i => some i
        | none => w.intensity_level }

/-! ## Ledger-recording operations (the user-action handlers) -/

/-- JavaScript `String.prototype.trim()`: strip leading and trailing
whitespace (written over the character list so that it evaluates inside the
kernel). -/
def jsTrim (s : String) : String :=
  ⟨((s.data.dropWhile Char.isWhitespace).reverse.dropWhile
      Char.isWhitespace).reverse⟩

/-- `handleUpdateSet`: unconditionally records an `edit` entry for
`editingSet.id` via `Map.set` (there is no check for a pending delete).
The parallel in-place update of the display copy of the snapshot is
presentation-only and not part of the ledger.  `convertWeightToStorage` is the
settings collaborator. -/
def handleUpdateSet (convertWeightToStorage : Int → Int) (editingSet : WorkoutSet)
    (setWeightValue setRepsValue : Int) (setNotesValue : String)
    (pc : PendingChanges) : PendingChanges :=
  let weightInLbs :=
    if setWeightValue > 0 then some (convertWeightToStorage setWeightValue) else none
  let updatedSetData : SetPatch :=
    { weight_lbs := weightInLbs,
      reps := if setRepsValue > 0 then some setRepsValue else none,
      notes := if jsTrim setNotesValue ≠ "" then some (jsTrim setNotesValue) else none }
  { pc with
    sets := mapSet editingSet.id (.edit updatedSetData editingSet) pc.sets }

/-- `handleDeleteSet`: records a `delete` entry for the set id via `Map.set`
(overwriting any pending edit for the same id). -/
def handleDeleteSet (setId : Int) (pc : PendingChanges) : PendingChanges :=
  { pc with sets := mapSet setId .delete pc.sets }

/-- `handleDeleteExercise`: a negative id (pending-new exercise) removes the
`ExerciseCreate` entry keyed by `Math.abs(exerciseId).toString()`; otherwise a
`delete` entry is recorded for the persisted exercise id. -/
def handleDeleteExercise (exerciseId : Int) (pc : PendingChanges) : PendingChanges :=
  if exerciseId < 0 then
    { pc with newExercises := mapDelete exerciseId.natAbs pc.newExercises }
  else
    { pc with exercises := mapSet exerciseId .delete pc.exercises }

/-- The replacement branch of `handleAddSelectedExercises`: records a
`replace` entry for `replacingExerciseId` (no sign check on the target id). -/
def recordExerciseReplace (replacingExerciseId newExerciseId : Int)
    (newExerciseName : String) (pc : PendingChanges) : PendingChanges :=
  { pc with
    exercises :=
      mapSet replacingExerciseId
        (.replace (some newExerciseId) (some newExerciseName)) pc.exercises }

/-- The add branch of `handleAddSelectedExercises`:
`new Map([...prev.newExercises, ...newExerciseEntries])`, i.e. each fetched
entry is inserted in order with `Map.set` semantics. -/
def recordNewExercises (entries : List (Nat × PendingNewExercise))
    (pc : PendingChanges) : PendingChanges :=
  { pc with
    newExercises := entries.foldl (fun m e => mapSet e.1 e.2 m) pc.newExercises }

/-- `handleAddSet`: a negative exercise id (unsaved new exercise) is rejected
with an alert and no dialog opens; otherwise the add-set dialog opens for the
exercise. -/
def handleAddSet (exerciseId : Int) : Option Int :=
  if exerciseId < 0 then none else some exerciseId

/-! ## Editor state, interruption bridge and reconciliation -/

/-- The in-progress scratch values serialized into the preservation blob. -/
structure TempValues where
  tempWorkoutName : String := ""
  tempIntensity : Int := 3
  tempWorkoutNotes : String := ""
  tempStartDateTime : String := ""
  tempEndDateTime : String := ""
deriving Repr, DecidableEq

/-- The parsed `sessionStorage` blob keyed `workout-{id}-preservation`. -/
structure PreservationBlob where
  timestamp : Nat := 0
  workoutId : Int := 0
  pendingChanges : PendingChanges := {}
  tempValues : TempValues := {}
  tempSetIdCounter : Nat := 0
deriving Repr, DecidableEq

/-- The component state relevant to the ledger: the last-fetched snapshot
(`originalWorkout`), the display copy (`workout`), the ledger, the temporary
set-id counter, and the durable `sessionStorage` slot for this workout. -/
structure EditorState where
  originalWorkout : Option WorkoutSummary := none
  workout : Option WorkoutSummary := none
  pendingChanges : PendingChanges := {}
  tempSetIdCounter : Nat := 1
  store : Option PreservationBlob := none
deriving Repr, DecidableEq

/-- `handleSaveNewSet`: looks up the owning exercise in the snapshot, assigns
`set_number` as `max` of the currently displayed sequence numbers plus one
(or `1` when none are displayed), stamps `completed_at` with the current time,
and inserts the new set under the key `"{exerciseId}-{tempId}"`, incrementing
the temporary-id counter. -/
def maxSetNumber : List WorkoutSet → Int
  | [] => 0
  | s :: rest => rest.foldl (fun a t => max a t.set_number) s.set_number

/-- `existingSets.length > 0 ? Math.max(...existingSets.map(s => s.set_number)) + 1 : 1`. -/
def nextSetNumber (existingSets : List WorkoutSet) : Int :=
  if existingSets.length > 0 then maxSetNumber existingSets + 1 else 1

def handleSaveNewSet (convertWeightToStorage : Int → Int) (now : String)
    (addingSetToExercise : Int) (setWeightValue setRepsValue : Int)
    (setNotesValue : String) (st : EditorState) : EditorState :=
  match st.workout with
  | none => st
  | some w =>
    match w.exercises.find? (fun ex => ex.id == addingSetToExercise) with
    | none => st
    | some exercise =>
      let existingSets := getDisplaySets st.pendingChanges exercise
      let weightInLbs :=
        if setWeightValue > 0 then some (convertWeightToStorage setWeightValue)
        else none
      let newSetData : NewSetData :=
        { workout_exercise_id := addingSetToExercise,
          set_number := nextSetNumber existingSets,
          weight_lbs := weightInLbs,
          reps := if setRepsValue > 0 then some setRepsValue else none,
          duration_seconds := none,
          distance_miles := none,
          notes := if jsTrim setNotesValue ≠ "" then some (jsTrim setNotesValue) else none,
          completed_at := some now }
      let tempId := st.tempSetIdCounter
      { st with
        tempSetIdCounter := st.tempSetIdCounter + 1,
        pendingChanges :=
          { st.pendingChanges with
            newSets :=
              mapSet (addingSetToExercise, tempId) newSetData
                st.pendingChanges.newSets } }

/-- The add-set user flow: `handleAddSet` gates the dialog, and confirming the
dialog runs `handleSaveNewSet` for the gated exercise id. -/
def addSetFlow (convertWeightToStorage : Int → Int) (now : String)
    (exerciseId : Int) (setWeightValue setRepsValue : Int)
    (setNotesValue : String) (st : EditorState) : EditorState :=
  match handleAddSet exerciseId with
  | none => st
  | some eid =>
      handleSaveNewSet convertWeightToStorage now eid setWeightValue
        setRepsValue setNotesValue st

/-- `data.exercises.some(ex => ex.sets.some(set => set.id === setId))`. -/
def setIdInSnapshot (data : WorkoutSummary) (setId : Int) : Bool :=
  data.exercises.any (fun ex => ex.sets.any (fun s => s.id == setId))

/-- `currentExerciseIds.has(exerciseId)` for
`currentExerciseIds = new Set(data.exercises.map(ex => ex.id))`. -/
def exerciseIdInSnapshot (data : WorkoutSummary) (exerciseId : Int) : Bool :=
  (data.exercises.map (fun ex => ex.id)).contains exerciseId

/-- The validation loops of `fetchWorkoutSummaryWithPendingPreservation`
(the Reconciler): keep set changes whose set id still exists in the fresh
snapshot, exercise changes whose exercise id still exists, new sets whose
owning exercise id still exists; keep all new exercises and the header patch. -/
def reconcilePendingChanges (saved : PendingChanges) (data : WorkoutSummary) :
    PendingChanges :=
  { workout := saved.workout,
    sets := saved.sets.filter (fun kv => setIdInSnapshot data kv.1),
    exercises := saved.exercises.filter (fun kv => exerciseIdInSnapshot data kv.1),
    newSets := saved.newSets.filter (fun kv => exerciseIdInSnapshot data kv.1.1),
    newExercises := saved.newExercises }

/-- Timer-delayed side effects scheduled by the resume path. -/
inductive DelayedAction where
  | removePreservation (workoutId : Int)
deriving Repr, DecidableEq

/-- `fetchWorkoutSummaryWithPendingPreservation`: restore the ledger and the
temp-id counter from the preservation blob when one is stored (falling back to
the in-memory state), fetch the fresh snapshot, overlay the restored header
patch on it for display, filter the restored ledger against the fresh
snapshot, and — when a blob was read — schedule its removal after 30000 ms
(the blob itself is retained for now). -/
def fetchWorkoutSummaryWithPendingPreservation (fresh : WorkoutSummary)
    (st : EditorState) : EditorState × List (Nat × DelayedAction) :=
  let savedPendingChanges :=
    match st.store with
    | some blob => blob.pendingChanges
    | none => st.pendingChanges
  let savedTempSetIdCounter :=
    match st.store with
    | some blob =>
        if blob.tempSetIdCounter = 0 then st.tempSetIdCounter
        else blob.tempSetIdCounter
    | none => st.tempSetIdCounter
  let delayed :=
    match st.store with
    | some _ => [(30000, DelayedAction.removePreservation fresh.id)]
    | none => []
  let finalPendingChanges := reconcilePendingChanges savedPendingChanges fresh
  ({ st with
     originalWorkout := some fresh,
     workout := some (applyWorkoutPatch fresh savedPendingChanges.workout),
     pendingChanges := finalPendingChanges,
     tempSetIdCounter := savedTempSetIdCounter },
   delayed)

/-! ## Commit Coordinator (`handleSaveAllChanges`) -/

/-- One remote request issued during commit; this is also what the thrown
error message names on failure. -/
inductive RemoteOp where
  | patchWorkout (workoutId : Int) (fields : WorkoutPatch)
  | updateSet (setId : Int) (fields : SetPatch)
  | deleteSet (setId : Int)
  | createSet (exerciseId : Int) (fields : NewSetData)
  | createExercise (workoutId : Int) (exerciseId : Int)
  | deleteExercise (exerciseId : Int)
  | replaceExercise (exerciseId : Int) (newExerciseId : Int)
deriving Repr, DecidableEq

/-- The position of an operation in the fixed apply order of
`handleSaveAllChanges`. -/
def stageOf : RemoteOp → Nat
  | .patchWorkout .. => 1
  | .updateSet .. => 2
  | .deleteSet .. => 2
  | .createSet .. => 3
  | .createExercise .. => 4
  | .deleteExercise .. => 5
  | .replaceExercise .. => 5

/-- Stage 1: the header patch, sent only when the patch object has keys. -/
def stage1Ops (workoutId : Int) (pc : PendingChanges) : List RemoteOp :=
  match pc.workout with
  | some p => if p.hasKeys then [.patchWorkout workoutId p] else []
  | none => []

/-- Stage 2: one `PUT`/`DELETE` per entry of `pendingChanges.sets`. -/
def stage2Ops (pc : PendingChanges) : List RemoteOp :=
  pc.sets.map (fun kv =>
    match kv.2 with
    | .edit d _ => .updateSet kv.1 d
    | .delete => .deleteSet kv.1)

/-- Stage 3: one `POST` per entry of `pendingChanges.newSets` (the URL uses
the payload's `workout_exercise_id`). -/
def stage3Ops (pc : PendingChanges) : List RemoteOp :=
  pc.newSets.map (fun kv => .createSet kv.2.workout_exercise_id kv.2)

/-- Stage 4: one `POST` per entry of `pendingChanges.newExercises`. -/
def stage4Ops (workoutId : Int) (pc : PendingChanges) : List RemoteOp :=
  pc.newExercises.map (fun kv => .createExercise workoutId kv.2.exerciseId)

/-- Stage 5: one `DELETE` or replace `PUT` per entry of
`pendingChanges.exercises`; a `replace` entry with a falsy `newExerciseId`
issues no request. -/
def stage5Ops (pc : PendingChanges) : List RemoteOp :=
  pc.exercises.filterMap (fun kv =>
    match kv.2 with
    | .delete => some (.deleteExercise kv.1)
    | .replace newId _ =>
        match newId with
        | some n => if n = 0 then none else some (.replaceExercise kv.1 n)
        | none => none)

/-- The full request sequence of `handleSaveAllChanges`, in source order:
header patch, then set edits/deletes, then set creates, then exercise
creates, then exercise deletes/replaces. -/
def plannedOps (workoutId : Int) (pc : PendingChanges) : List RemoteOp :=
  stage1Ops workoutId pc ++ stage2Ops pc ++ stage3Ops pc ++
    stage4Ops workoutId pc ++ stage5Ops pc

/-- Issue the requests sequentially against the remote oracle; the first
failing request throws, aborting the rest and reporting that operation. -/
def runOps (remote : RemoteOp → Bool) : List RemoteOp → Except RemoteOp (List RemoteOp)
  | [] => .ok []
  | op :: rest =>
    if remote op then
      match runOps remote rest with
      | .ok t => .ok (op :: t)
      | .error e => .error e
    else .error op

/-- Outcome of a commit attempt. -/
inductive CommitResult where
  | noop
  | saved (trace : List RemoteOp)
  | failed (failedOp : RemoteOp)
deriving Repr, DecidableEq

/-- `handleSaveAllChanges`: guard on a loaded workout and a non-empty ledger;
issue the staged requests; on full success clear the ledger and refetch the
snapshot (`fetchWorkoutSummary`); on any failure leave the state untouched
and report the failing operation.  The `sessionStorage` slot is not touched
on either path. -/
def handleSaveAllChanges (remote : RemoteOp → Bool) (refetched : WorkoutSummary)
    (st : EditorState) : EditorState × CommitResult :=
  match st.workout with
  | none => (st, .noop)
  | some w =>
    if hasPendingChanges st.pendingChanges then
      match runOps remote (plannedOps w.id st.pendingChanges) with
      | .error op => (st, .failed op)
      | .ok trace =>
          ({ st with
             originalWorkout := some refetched,
             workout := some refetched,
             pendingChanges := emptyPendingChanges }, .saved trace)
    else (st, .noop)

/-! ## Invariants and concrete fixtures -/

/-- Each ledger collection has pairwise-distinct keys (the JS `Map`
structural invariant: at most one entry per entity id). -/
def LedgerWF (pc : PendingChanges) : Prop :=
  (pc.sets.map Prod.fst).Nodup ∧ (pc.exercises.map Prod.fst).Nodup ∧
    (pc.newSets.map Prod.fst).Nodup ∧ (pc.newExercises.map Prod.fst).Nodup

instance (pc : PendingChanges) : Decidable (LedgerWF pc) := by
  unfold LedgerWF; infer_instance

/-- Every `delete` entry in the exercise ledger targets a non-negative id. -/
def DeleteEntriesNonneg (pc : PendingChanges) : Prop :=
  ∀ kv ∈ pc.exercises, kv.2 = PendingExerciseChange.delete → 0 ≤ kv.1

instance (pc : PendingChanges) : Decidable (DeleteEntriesNonneg pc) := by
  unfold DeleteEntriesNonneg; infer_instance

/-- The sequence numbers of a displayed set list. -/
def seqNumbers (l : List WorkoutSet) : List Int :=
  l.map (fun s => s.set_number)

/-- Fixture: a persisted set with id 5. -/
def exSet5 : WorkoutSet := { id := 5, workout_exercise_id := 3, set_number := 1 }

/-- Fixture: sets 11 and 12 (sequence numbers 1 and 2) of exercise 3. -/
def set11 : WorkoutSet := { id := 11, workout_exercise_id := 3, set_number := 1 }

def set12 : WorkoutSet :=
  { id := 12, workout_exercise_id := 3, set_number := 2, reps := some 8 }

/-- Fixture: persisted exercise instance 3 with the two sets above. -/
def exercise3 : WorkoutExercise :=
  { id := 3, workout_id := 1, exercise_id := 21, order_index := 0,
    name := "Bench Press", category := "Strength", muscle_group := "Chest",
    equipment := "Barbell", sets := [set11, set12] }

/-- Fixture: sets 21 and 22 of exercise 4, both carrying sequence number 1
(per-entity REST endpoints give no cross-row uniqueness guarantee, so such a
snapshot is representable). -/
def set21 : WorkoutSet := { id := 21, workout_exercise_id := 4, set_number := 1 }

def set22 : WorkoutSet :=
  { id := 22, workout_exercise_id := 4, set_number := 1, reps := some 12 }

/-- Fixture: exercise instance 4 whose snapshot sets collide on sequence
number 1. -/
def exercise4 : WorkoutExercise :=
  { id := 4, workout_id := 1, exercise_id := 22, order_index := 1,
    name := "Row", category := "Strength", muscle_group := "Back",
    equipment := "Cable", sets := [set21, set22] }

/-- Fixture: the workout snapshot containing exercise 3. -/
def workout1 : WorkoutSummary :=
  { id := 1, name := some "Chest Day", started_at := "2024-01-01T10:00:00Z",
    completed_at := "2024-01-01T11:00:00Z", duration_minutes := 60,
    intensity_level := some 3, exercises := [exercise3] }

/-- Fixture: the payload of a pending new set for exercise 3. -/
def newSetPayload : NewSetData :=
  { workout_exercise_id := 3, set_number := 3, reps := some 5,
    completed_at := some "t" }

/-- Fixture: a pending new exercise. -/
def pendingSquat : PendingNewExercise :=
  { exerciseId := 33, name := "Squat", category := "Strength",
    muscle_group := "Legs", equipment := "Barbell", tempId := 900 }

/-- Fixture: a ledger with one entry of every kind (used to exercise the
commit stages). -/
def fullLedger : PendingChanges :=
  { workout := some { name := some "Renamed" },
    sets := [(11, .edit { reps := some 10 } set11), (12, .delete)],
    newSets := [((3, 1), newSetPayload)],
    newExercises := [(900, pendingSquat)],
    exercises := [(3, .replace (some 33) (some "Squat"))] }

/-- Fixture: the set-creation request planned from `fullLedger`'s stage 3. -/
def failingCreate : RemoteOp := .createSet 3 newSetPayload

/-- Fixture: an editor state holding `workout1` and `fullLedger`. -/
def editorState1 : EditorState :=
  { originalWorkout := some workout1, workout := some workout1,
    pendingChanges := fullLedger, tempSetIdCounter := 2,
    store := none }

/-- Fixture: the preservation blob for `workout1` holding `fullLedger`. -/
def blob1 : PreservationBlob :=
  { timestamp := 1700000000, workoutId := 1, pendingChanges := fullLedger,
    tempSetIdCounter := 2 }

/-- Fixture: `editorState1` with `blob1` in the durable slot. -/
def editorState1WithBlob : EditorState :=
  { editorState1 with store := some blob1 }

/-- Fixture: a remote oracle that rejects set-creation requests (and accepts
everything else), as in the spec's Scenario D. -/
def rejectCreateSet : RemoteOp → Bool
  | .createSet _ _ => false
  | _ => true

/-- The state after successfully committing `editorState1`. -/
def committedState1 : EditorState :=
  { originalWorkout := some workout1, workout := some workout1,
    pendingChanges := emptyPendingChanges, tempSetIdCounter := 2,
    store := none }

/-- Fixture: a clean editing session on `workout1` (empty ledger). -/
def cleanState1 : EditorState :=
  { originalWorkout := some workout1, workout := some workout1,
    pendingChanges := emptyPendingChanges, tempSetIdCounter := 1,
    store := none }

/-! ## C1: reconciliation never resurrects -/

/-- C1: for every stored ledger and fresh snapshot, the reconciled ledger
keeps a `SetEdit`/`SetDelete` entry iff some exercise in the fresh snapshot
contains a set with that id, keeps an `ExerciseDelete`/`ExerciseReplace`
entry iff the fresh snapshot contains that exercise instance, keeps a
`SetCreate` entry iff its owning exercise instance id is present, and always
keeps `ExerciseCreate` entries and the header patch; dropping is silent (the
reconciler is a total function with no error outcome). -/
theorem reconcile_no_resurrection (saved : PendingChanges) (data : WorkoutSummary) :
    (∀ e : Int × PendingSetChange,
        e ∈ (reconcilePendingChanges saved data).sets ↔
          e ∈ saved.sets ∧ setIdInSnapshot data e.1 = true)
    ∧ (∀ e : Int × PendingExerciseChange,
        e ∈ (reconcilePendingChanges saved data).exercises ↔
          e ∈ saved.exercises ∧ exerciseIdInSnapshot data e.1 = true)
    ∧ (∀ e : (Int × Nat) × NewSetData,
        e ∈ (reconcilePendingChanges saved data).newSets ↔
          e ∈ saved.newSets ∧ exerciseIdInSnapshot data e.1.1 = true)
    ∧ (reconcilePendingChanges saved data).newExercises = saved.newExercises
    ∧ (reconcilePendingChanges saved data).workout = saved.workout := by
  refine ⟨fun e => ?_, fun e => ?_, fun e => ?_, rfl, rfl⟩ <;>
    simp [reconcilePendingChanges, List.mem_filter]

/-! ## C4: recording an edit over a pending delete -/

/-- C4 counterexample: with a pending `SetDelete` for set 5, running
`handleUpdateSet` on set 5 is not rejected: the delete entry is replaced by
an edit entry, so the ledger does change for that id. -/
theorem update_after_delete_counterexample :
    mapGet 5 (handleDeleteSet 5 emptyPendingChanges).sets
        = some PendingSetChange.delete
    ∧ mapGet 5 (handleUpdateSet (fun x => x) exSet5 100 10 ""
          (handleDeleteSet 5 emptyPendingChanges)).sets
        = some (.edit { weight_lbs := some 100, reps := some 10 } exSet5)
    ∧ (handleUpdateSet (fun x => x) exSet5 100 10 ""
          (handleDeleteSet 5 emptyPendingChanges)).sets
        ≠ (handleDeleteSet 5 emptyPendingChanges).sets := by
  refine ⟨rfl, ?_, ?_⟩ <;> decide

/-- C4 (amended): recording a `SetEdit` for an id is never rejected; it
overwrites whatever entry (including a pending `SetDelete`) the ledger holds
for that id, so afterwards the ledger maps the id to the new edit entry
(the view layer merely hides the set menu for pending-deleted sets). -/
theorem update_set_overwrites (convert : Int → Int) (s : WorkoutSet)
    (wv rv : Int) (nv : String) (pc : PendingChanges) :
    mapGet s.id (handleUpdateSet convert s wv rv nv pc).sets
      = some (.edit
          { weight_lbs := if wv > 0 then some (convert wv) else none,
            reps := if rv > 0 then some rv else none,
            notes := if jsTrim nv ≠ "" then some (jsTrim nv) else none } s) := by
  simp [handleUpdateSet, mapGet_mapSet_self]

/-! ## C6: projection purity -/

/-- C6: the projection functions are pure: their output is determined by the
Snapshot/Ledger pair alone, so two calls on equal inputs yield identical
output (and, being Lean functions over immutable values, they cannot mutate
their inputs). -/
theorem projections_pure (ex ex' : WorkoutExercise) (w w' : Option WorkoutSummary)
    (ws ws' : WorkoutSummary) (patch patch' : Option WorkoutPatch)
    (pc pc' : PendingChanges)
    (hex : ex = ex') (hw : w = w') (hws : ws = ws')
    (hpatch : patch = patch') (hpc : pc = pc') :
    getDisplaySets pc ex = getDisplaySets pc' ex'
    ∧ getDisplayExercises w pc = getDisplayExercises w' pc'
    ∧ applyWorkoutPatch ws patch = applyWorkoutPatch ws' patch' := by
  subst hex hw hws hpatch hpc
  exact ⟨rfl, rfl, rfl⟩

theorem projections_pure_witness :
    getDisplaySets fullLedger exercise3 = getDisplaySets fullLedger exercise3
    ∧ getDisplayExercises (some workout1) fullLedger
        = getDisplayExercises (some workout1) fullLedger
    ∧ applyWorkoutPatch workout1 fullLedger.workout
        = applyWorkoutPatch workout1 fullLedger.workout :=
  projections_pure exercise3 exercise3 (some workout1) (some workout1)
    workout1 workout1 fullLedger.workout fullLedger.workout
    fullLedger fullLedger rfl rfl rfl rfl rfl

/-! ## C9: no new set on an unsaved exercise -/

/-- C9: attempting to add a set to an exercise instance with a negative
(pending-new) id is rejected before the dialog opens: the whole add-set flow
leaves the editor state — in particular the ledger and its `SetCreate`
entries — unchanged. -/
theorem add_set_negative_id_rejected (convert : Int → Int) (now : String)
    (eid : Int) (wv rv : Int) (nv : String) (st : EditorState)
    (h : eid < 0) :
    addSetFlow convert now eid wv rv nv st = st
    ∧ (addSetFlow convert now eid wv rv nv st).pendingChanges.newSets
        = st.pendingChanges.newSets := by
  have hnone : handleAddSet eid = none := by
    unfold handleAddSet
    rw [if_pos h]
  unfold addSetFlow
  rw [hnone]
  exact ⟨rfl, rfl⟩

theorem add_set_negative_id_rejected_witness :
    (-4 : Int) < 0
    ∧ addSetFlow (fun x => x) "2024-01-01T12:00:00Z" (-4) 100 10 "" editorState1
        = editorState1 :=
  ⟨by decide, (add_set_negative_id_rejected (fun x => x) "2024-01-01T12:00:00Z"
      (-4) 100 10 "" editorState1 (by decide)).1⟩

/-! ## C8: at most one ledger entry per id, latest write wins -/

theorem nodup_keys_foldl_mapSet [DecidableEq α] (entries : List (α × β)) :
    ∀ m : List (α × β), (m.map Prod.fst).Nodup →
      ((entries.foldl (fun acc e => mapSet e.1 e.2 acc) m).map Prod.fst).Nodup := by
  induction entries with
  | nil => intro m h; simpa using h
  | cons e rest ih => intro m h; exact ih _ (nodup_keys_mapSet _ _ _ h)

/-- C8: every ledger-recording operation preserves the at-most-one-entry-per-
id invariant of each ledger collection (JS `Map.set`/`Map.delete` semantics),
and a later write on an id replaces the earlier entry — in particular,
recording a `SetDelete` on a set id leaves the ledger mapping that id to the
delete entry, discarding any pending edit. -/
theorem ledger_single_entry_per_id (pc : PendingChanges) (st : EditorState)
    (convert : Int → Int) (now : String) (s : WorkoutSet) (wv rv : Int)
    (nv : String) (setId exerciseId rid nid : Int) (nm : String)
    (entries : List (Nat × PendingNewExercise))
    (h : LedgerWF pc) (hst : st.pendingChanges = pc) :
    LedgerWF (handleUpdateSet convert s wv rv nv pc)
    ∧ LedgerWF (handleDeleteSet setId pc)
    ∧ LedgerWF (handleDeleteExercise exerciseId pc)
    ∧ LedgerWF (recordExerciseReplace rid nid nm pc)
    ∧ LedgerWF (recordNewExercises entries pc)
    ∧ LedgerWF (handleSaveNewSet convert now exerciseId wv rv nv st).pendingChanges
    ∧ mapGet setId (handleDeleteSet setId pc).sets = some .delete
    ∧ mapGet s.id (handleUpdateSet convert s wv rv nv pc).sets
        = some (.edit
            { weight_lbs := if wv > 0 then some (convert wv) else none,
              reps := if rv > 0 then some rv else none,
              notes := if jsTrim nv ≠ "" then some (jsTrim nv) else none } s) := by
  obtain ⟨h1, h2, h3, h4⟩ := h
  refine ⟨?_, ?_, ?_, ?_, ?_, ?_, ?_, ?_⟩
  · exact ⟨nodup_keys_mapSet _ _ _ h1, h2, h3, h4⟩
  · exact ⟨nodup_keys_mapSet _ _ _ h1, h2, h3, h4⟩
  · unfold handleDeleteExercise
    by_cases hneg : exerciseId < 0
    · rw [if_pos hneg]
      exact ⟨h1, h2, h3, nodup_keys_mapDelete _ _ h4⟩
    · rw [if_neg hneg]
      exact ⟨h1, nodup_keys_mapSet _ _ _ h2, h3, h4⟩
  · exact ⟨h1, nodup_keys_mapSet _ _ _ h2, h3, h4⟩
  · exact ⟨h1, h2, h3, nodup_keys_foldl_mapSet _ _ h4⟩
  · subst hst
    unfold handleSaveNewSet
    split
    · exact ⟨h1, h2, h3, h4⟩
    · split
      · exact ⟨h1, h2, h3, h4⟩
      · exact ⟨h1, h2, nodup_keys_mapSet _ _ _ h3, h4⟩
  · exact mapGet_mapSet_self _ _ _
  · simp [handleUpdateSet, mapGet_mapSet_self]

theorem ledger_single_entry_per_id_witness :
    LedgerWF fullLedger
    ∧ LedgerWF (handleDeleteSet 11 fullLedger)
    ∧ mapGet 11 (handleDeleteSet 11 fullLedger).sets
        = some PendingSetChange.delete :=
  ⟨by decide,
   (ledger_single_entry_per_id fullLedger editorState1 (fun x => x) "t" set11
      100 10 "" 11 3 3 33 "Squat" [] (by decide) rfl).2.1,
   (ledger_single_entry_per_id fullLedger editorState1 (fun x => x) "t" set11
      100 10 "" 11 3 3 33 "Squat" [] (by decide) rfl).2.2.2.2.2.2.1⟩

/-! ## C10: deleting a pending-new exercise -/

/-- C10 counterexample: the replace flow is not sign-guarded, so a `replace`
entry can target a negative (pending-new) id — refuting that delete/replace
entries only ever target positive persisted ids — and such an entry survives
`handleDeleteExercise` of that pending-new exercise, so the ledger still
holds an entry for it after the deletion. -/
theorem delete_pending_new_counterexample :
    mapGet (-7) (recordExerciseReplace (-7) 42 "Incline Bench"
        emptyPendingChanges).exercises
      = some (.replace (some 42) (some "Incline Bench"))
    ∧ ((-7 : Int) < 0)
    ∧ mapGet (-7) (handleDeleteExercise (-7)
        (recordExerciseReplace (-7) 42 "Incline Bench"
          emptyPendingChanges)).exercises
      = some (.replace (some 42) (some "Incline Bench")) := by
  refine ⟨?_, ?_, ?_⟩ <;> decide

/-- C10 (amended): deleting an exercise instance with a negative (pending-
new) id erases its `ExerciseCreate` entry (keyed by the absolute value of the
id) instead of recording an `ExerciseDelete`, and touches no other ledger
collection; `delete` entries are only ever recorded for non-negative ids
(both `handleDeleteExercise` and the replace recording preserve that
invariant); however a `replace` entry may target a negative id — the replace
flow is unguarded — and such an entry for the pending-new exercise survives
its deletion. -/
theorem delete_pending_new_exercise (pc : PendingChanges) (eid : Int)
    (h : eid < 0) :
    (handleDeleteExercise eid pc).exercises = pc.exercises
    ∧ (handleDeleteExercise eid pc).sets = pc.sets
    ∧ (handleDeleteExercise eid pc).newSets = pc.newSets
    ∧ (handleDeleteExercise eid pc).workout = pc.workout
    ∧ mapGet eid.natAbs (handleDeleteExercise eid pc).newExercises = none
    ∧ (∀ eid', DeleteEntriesNonneg pc →
        DeleteEntriesNonneg (handleDeleteExercise eid' pc))
    ∧ (∀ rid nid nm, DeleteEntriesNonneg pc →
        DeleteEntriesNonneg (recordExerciseReplace rid nid nm pc)) := by
  refine ⟨?_, ?_, ?_, ?_, ?_, ?_, ?_⟩
  · simp [handleDeleteExercise, if_pos h]
  · simp [handleDeleteExercise, if_pos h]
  · simp [handleDeleteExercise, if_pos h]
  · simp [handleDeleteExercise, if_pos h]
  · simp [handleDeleteExercise, if_pos h, mapGet_mapDelete_self]
  · intro eid' hD
    unfold handleDeleteExercise
    by_cases h' : eid' < 0
    · rw [if_pos h']
      exact hD
    · rw [if_neg h']
      intro kv hkv hdel
      rcases mem_mapSet hkv with rfl | hold
      · exact le_of_not_lt h'
      · exact hD kv hold hdel
  · intro rid nid nm hD kv hkv hdel
    rcases mem_mapSet hkv with rfl | hold
    · simp at hdel
    · exact hD kv hold hdel

theorem delete_pending_new_exercise_witness :
    ((-7 : Int) < 0)
    ∧ (handleDeleteExercise (-7) fullLedger).exercises = fullLedger.exercises
    ∧ mapGet (Int.natAbs (-7))
        (handleDeleteExercise (-7) fullLedger).newExercises = none
    ∧ DeleteEntriesNonneg (handleDeleteExercise 3 fullLedger) :=
  ⟨by decide,
   (delete_pending_new_exercise fullLedger (-7) (by decide)).1,
   (delete_pending_new_exercise fullLedger (-7) (by decide)).2.2.2.2.1,
   (delete_pending_new_exercise fullLedger (-7) (by decide)).2.2.2.2.2.1 3
     (by decide)⟩

/-! ## C2: fixed stage order of the commit -/

/-- A successful run issues exactly the planned sequence. -/
theorem runOps_ok_eq (remote : RemoteOp → Bool) :
    ∀ l t, runOps remote l = .ok t → t = l := by
  intro l
  induction l with
  | nil => intro t h; simpa [runOps] using h.symm
  | cons op rest ih =>
    intro t h
    unfold runOps at h
    by_cases hr : remote op
    · rw [if_pos hr] at h
      cases hrec : runOps remote rest with
      | ok t' => rw [hrec] at h; cases h; rw [ih t' hrec]
      | error e => rw [hrec] at h; cases h
    · rw [if_neg hr] at h
      cases h

/-- A failed run reports an operation of the input list, and that operation
was indeed rejected by the remote. -/
theorem runOps_error_mem (remote : RemoteOp → Bool) :
    ∀ l op, runOps remote l = .error op → op ∈ l ∧ remote op = false := by
  intro l
  induction l with
  | nil => intro op h; simp [runOps] at h
  | cons o rest ih =>
    intro op h
    unfold runOps at h
    by_cases hr : remote o
    · rw [if_pos hr] at h
      cases hrec : runOps remote rest with
      | ok t' => rw [hrec] at h; cases h
      | error e =>
        rw [hrec] at h
        cases h
        obtain ⟨hm, hf⟩ := ih op hrec
        exact ⟨List.mem_cons_of_mem _ hm, hf⟩
    · rw [if_neg hr] at h
      cases h
      exact ⟨List.mem_cons_self _ _, by simpa using hr⟩

theorem stage1Ops_stage (workoutId : Int) (pc : PendingChanges) :
    ∀ op ∈ stage1Ops workoutId pc, stageOf op = 1 := by
  intro op h
  unfold stage1Ops at h
  split at h
  · split at h
    · rcases List.mem_singleton.mp h with rfl
      rfl
    · cases h
  · cases h

theorem stage2Ops_stage (pc : PendingChanges) :
    ∀ op ∈ stage2Ops pc, stageOf op = 2 := by
  intro op h
  unfold stage2Ops at h
  obtain ⟨kv, _, rfl⟩ := List.mem_map.mp h
  cases kv.2 <;> rfl

theorem stage3Ops_stage (pc : PendingChanges) :
    ∀ op ∈ stage3Ops pc, stageOf op = 3 := by
  intro op h
  obtain ⟨kv, _, rfl⟩ := List.mem_map.mp h
  rfl

theorem stage4Ops_stage (workoutId : Int) (pc : PendingChanges) :
    ∀ op ∈ stage4Ops workoutId pc, stageOf op = 4 := by
  intro op h
  obtain ⟨kv, _, rfl⟩ := List.mem_map.mp h
  rfl

theorem stage5Ops_stage (pc : PendingChanges) :
    ∀ op ∈ stage5Ops pc, stageOf op = 5 := by
  intro op h
  unfold stage5Ops at h
  obtain ⟨kv, _, hkv⟩ := List.mem_filterMap.mp h
  split at hkv
  · cases hkv; rfl
  · split at hkv
    · split at hkv
      · cases hkv
      · cases hkv; rfl
    · cases hkv

/-- A list whose elements all sit in one stage is stage-sorted. -/
theorem pairwise_of_const_stage {l : List RemoteOp} {k : Nat}
    (h : ∀ op ∈ l, stageOf op = k) :
    l.Pairwise (fun a b => stageOf a ≤ stageOf b) := by
  induction l with
  | nil => exact List.Pairwise.nil
  | cons o rest ih =>
    refine List.Pairwise.cons ?_ (ih fun op hop => h op (List.mem_cons_of_mem _ hop))
    intro b hb
    rw [h o (List.mem_cons_self _ _), h b (List.mem_cons_of_mem _ hb)]

/-- Prepending an earlier stage to a stage-sorted tail keeps it sorted. -/
theorem pairwise_stage_append {l₁ l₂ : List RemoteOp} {k : Nat}
    (h1 : ∀ op ∈ l₁, stageOf op = k) (h2 : ∀ op ∈ l₂, k ≤ stageOf op)
    (hp : l₂.Pairwise (fun a b => stageOf a ≤ stageOf b)) :
    (l₁ ++ l₂).Pairwise (fun a b => stageOf a ≤ stageOf b) := by
  rw [List.pairwise_append]
  exact ⟨pairwise_of_const_stage h1, hp,
    fun a ha b hb => (h1 a ha) ▸ h2 b hb⟩

/-- The planned request sequence is sorted by stage. -/
theorem plannedOps_stage_sorted (workoutId : Int) (pc : PendingChanges) :
    (plannedOps workoutId pc).Pairwise (fun a b => stageOf a ≤ stageOf b) := by
  unfold plannedOps
  rw [List.append_assoc, List.append_assoc, List.append_assoc]
  refine pairwise_stage_append (stage1Ops_stage workoutId pc) ?_ ?_
  · intro op hop
    rcases List.mem_append.mp hop with h | h
    · rw [stage2Ops_stage pc op h]; omega
    rcases List.mem_append.mp h with h' | h'
    · rw [stage3Ops_stage pc op h']; omega
    rcases List.mem_append.mp h' with h'' | h''
    · rw [stage4Ops_stage workoutId pc op h'']; omega
    · rw [stage5Ops_stage pc op h'']; omega
  refine pairwise_stage_append (stage2Ops_stage pc) ?_ ?_
  · intro op hop
    rcases List.mem_append.mp hop with h | h
    · rw [stage3Ops_stage pc op h]; omega
    rcases List.mem_append.mp h with h' | h'
    · rw [stage4Ops_stage workoutId pc op h']; omega
    · rw [stage5Ops_stage pc op h']; omega
  refine pairwise_stage_append (stage3Ops_stage pc) ?_ ?_
  · intro op hop
    rcases List.mem_append.mp hop with h | h
    · rw [stage4Ops_stage workoutId pc op h]; omega
    · rw [stage5Ops_stage pc op h]; omega
  exact pairwise_stage_append (stage4Ops_stage workoutId pc)
    (fun op hop => by rw [stage5Ops_stage pc op hop]; omega)
    (pairwise_of_const_stage (stage5Ops_stage pc))

/-- C2: a successful commit issues its remote operations in the fixed stage
order — header patch, then set edits/deletes, then set creates, then
exercise creates, then exercise deletes/replaces: in the issued trace no
operation of a later stage precedes any operation of an earlier stage. -/
theorem commit_stage_order (remote : RemoteOp → Bool) (workoutId : Int)
    (pc : PendingChanges) (trace : List RemoteOp)
    (h : runOps remote (plannedOps workoutId pc) = .ok trace) :
    trace = plannedOps workoutId pc
    ∧ trace.Pairwise (fun a b => stageOf a ≤ stageOf b) := by
  have he := runOps_ok_eq remote _ _ h
  exact ⟨he, he ▸ plannedOps_stage_sorted workoutId pc⟩

theorem commit_stage_order_witness :
    plannedOps 1 fullLedger = plannedOps 1 fullLedger
    ∧ (plannedOps 1 fullLedger).Pairwise (fun a b => stageOf a ≤ stageOf b) :=
  commit_stage_order (fun _ => true) 1 fullLedger (plannedOps 1 fullLedger)
    (by rfl)

/-! ## C3: commit failure is atomic and names the failing operation -/

/-- C3: if any single remote operation fails during commit, the whole
attempt aborts, the editor state — in particular the ledger with every
stage's entries — is left completely unchanged (clearing is all-or-nothing),
and the reported failure names an operation that was genuinely planned from
the ledger and rejected by the remote. -/
theorem commit_failure_atomic (remote : RemoteOp → Bool)
    (refetched : WorkoutSummary) (st st' : EditorState) (w : WorkoutSummary)
    (op : RemoteOp)
    (hw : st.workout = some w)
    (h : handleSaveAllChanges remote refetched st = (st', .failed op)) :
    st' = st
    ∧ st'.pendingChanges = st.pendingChanges
    ∧ op ∈ plannedOps w.id st.pendingChanges
    ∧ remote op = false := by
  unfold handleSaveAllChanges at h
  split at h
  · rename_i hnone
    rw [hnone] at hw
    cases hw
  · rename_i w' hsome
    rw [hsome] at hw
    obtain rfl : w' = w := by injection hw
    split at h
    · split at h
      · rename_i e hrun
        cases h
        obtain ⟨hm, hf⟩ := runOps_error_mem remote _ _ hrun
        exact ⟨rfl, rfl, hm, hf⟩
      · cases h
    · cases h

theorem commit_failure_atomic_witness :
    editorState1.pendingChanges = editorState1.pendingChanges
    ∧ failingCreate ∈ plannedOps workout1.id editorState1.pendingChanges
    ∧ rejectCreateSet failingCreate = false :=
  ⟨(commit_failure_atomic rejectCreateSet workout1 editorState1 editorState1
      workout1 failingCreate rfl (by rfl)).2.1,
   (commit_failure_atomic rejectCreateSet workout1 editorState1 editorState1
      workout1 failingCreate rfl (by rfl)).2.2.1,
   (commit_failure_atomic rejectCreateSet workout1 editorState1 editorState1
      workout1 failingCreate rfl (by rfl)).2.2.2⟩

/-! ## C7: the durable blob is not discarded by a successful commit -/

/-- C7 counterexample: starting from a state whose durable slot holds a
preservation blob, a fully successful commit clears the ledger and refetches
the snapshot but leaves the blob in place — it is not discarded on commit
success. -/
theorem commit_retains_blob_counterexample :
    (handleSaveAllChanges (fun _ => true) workout1 editorState1WithBlob).2
      = CommitResult.saved (plannedOps workout1.id fullLedger)
    ∧ (handleSaveAllChanges (fun _ => true) workout1 editorState1WithBlob).1.store
      = some blob1 :=
  ⟨rfl, rfl⟩

/-- C7 (amended): on success of every commit the ledger is cleared and the
snapshot refetched, but the Interruption Bridge's durable blob is untouched
by the commit; the blob is removed only by the 30-second delayed cleanup that
the resume path schedules when it reads the blob (which also leaves the blob
in place immediately, tolerating a resume retry). -/
theorem commit_success_retains_blob (remote : RemoteOp → Bool)
    (refetched : WorkoutSummary) (st st' : EditorState) (tr : List RemoteOp)
    (fresh : WorkoutSummary) (st0 : EditorState) (blob : PreservationBlob)
    (h : handleSaveAllChanges remote refetched st = (st', .saved tr))
    (hblob : st0.store = some blob) :
    st'.store = st.store
    ∧ st'.pendingChanges = emptyPendingChanges
    ∧ st'.workout = some refetched
    ∧ st'.originalWorkout = some refetched
    ∧ (fetchWorkoutSummaryWithPendingPreservation fresh st0).2
        = [(30000, DelayedAction.removePreservation fresh.id)]
    ∧ (fetchWorkoutSummaryWithPendingPreservation fresh st0).1.store
        = some blob := by
  unfold handleSaveAllChanges at h
  split at h
  · cases h
  · split at h
    · split at h
      · cases h
      · cases h
        refine ⟨rfl, rfl, rfl, rfl, ?_, ?_⟩
        · simp [fetchWorkoutSummaryWithPendingPreservation, hblob]
        · simp [fetchWorkoutSummaryWithPendingPreservation, hblob]
    · cases h

theorem commit_success_retains_blob_witness :
    committedState1.store = editorState1.store
    ∧ committedState1.pendingChanges = emptyPendingChanges
    ∧ (fetchWorkoutSummaryWithPendingPreservation workout1
        editorState1WithBlob).2
      = [(30000, DelayedAction.removePreservation workout1.id)] :=
  ⟨(commit_success_retains_blob (fun _ => true) workout1 editorState1
      committedState1 (plannedOps workout1.id fullLedger) workout1
      editorState1WithBlob blob1 (by rfl) rfl).1,
   (commit_success_retains_blob (fun _ => true) workout1 editorState1
      committedState1 (plannedOps workout1.id fullLedger) workout1
      editorState1WithBlob blob1 (by rfl) rfl).2.1,
   (commit_success_retains_blob (fun _ => true) workout1 editorState1
      committedState1 (plannedOps workout1.id fullLedger) workout1
      editorState1WithBlob blob1 (by rfl) rfl).2.2.2.2.1⟩

/-! ## C5: sequence numbers of the set projection -/

theorem insertBySetNumber_perm (s : WorkoutSet) (l : List WorkoutSet) :
    List.Perm (insertBySetNumber s l) (s :: l) := by
  induction l with
  | nil => exact List.Perm.refl _
  | cons t rest ih =>
    unfold insertBySetNumber
    by_cases h : s.set_number ≤ t.set_number
    · rw [if_pos h]
    · rw [if_neg h]
      exact (List.Perm.cons t ih).trans (List.Perm.swap s t rest)

theorem sortBySetNumber_perm (l : List WorkoutSet) :
    List.Perm (sortBySetNumber l) l := by
  induction l with
  | nil => exact List.Perm.refl _
  | cons s rest ih =>
    exact (insertBySetNumber_perm s _).trans (List.Perm.cons s ih)

theorem le_foldl_max_init (l : List WorkoutSet) :
    ∀ a : Int, a ≤ l.foldl (fun b t => max b t.set_number) a := by
  induction l with
  | nil => intro a; simp
  | cons t rest ih =>
    intro a
    exact le_trans (le_max_left a t.set_number) (ih _)

theorem le_foldl_max_mem (l : List WorkoutSet) :
    ∀ (a : Int) (t : WorkoutSet), t ∈ l →
      t.set_number ≤ l.foldl (fun b u => max b u.set_number) a := by
  induction l with
  | nil => intro a t ht; cases ht
  | cons u rest ih =>
    intro a t ht
    rcases List.mem_cons.mp ht with rfl | hmem
    · exact le_trans (le_max_right a t.set_number) (le_foldl_max_init rest _)
    · exact ih _ t hmem

/-- Every displayed sequence number is bounded by the maximum. -/
theorem le_maxSetNumber (l : List WorkoutSet) (s : WorkoutSet) (h : s ∈ l) :
    s.set_number ≤ maxSetNumber l := by
  cases l with
  | nil => cases h
  | cons u rest =>
    unfold maxSetNumber
    rcases List.mem_cons.mp h with rfl | hmem
    · exact le_foldl_max_init rest _
    · exact le_foldl_max_mem rest _ s hmem

/-- C5 counterexample, refuting both universally quantified conjuncts of the
claim.  Minimum: exercise 3's snapshot holds sets numbered 1 and 2; with a
pending delete of the set numbered 1, the projection is the non-empty list
`[set 2]`, whose minimum sequence number is 2, not 1 — deleting the first set
does not renumber the rest.  Distinctness: exercise 4's snapshot holds two
different sets that both carry sequence number 1, and `getDisplaySets` passes
them through unrenumbered, so the projection contains two sets with the same
sequence number. -/
theorem projected_sequence_counterexample :
    (getDisplaySets (handleDeleteSet 11 emptyPendingChanges) exercise3 = [set12]
    ∧ (getDisplaySets (handleDeleteSet 11 emptyPendingChanges) exercise3).length > 0
    ∧ ∀ s ∈ getDisplaySets (handleDeleteSet 11 emptyPendingChanges) exercise3,
        s.set_number ≠ 1)
    ∧ (getDisplaySets emptyPendingChanges exercise4 = [set21, set22]
    ∧ set21 ∈ getDisplaySets emptyPendingChanges exercise4
    ∧ set22 ∈ getDisplaySets emptyPendingChanges exercise4
    ∧ set21 ≠ set22
    ∧ set21.set_number = set22.set_number) := by
  refine ⟨⟨?_, ?_, ?_⟩, ?_, ?_, ?_, ?_, ?_⟩ <;> decide

/-- Inserting a fresh pending new set whose sequence number is
`nextSetNumber` of the current projection keeps the projected sequence
numbers pairwise distinct. -/
theorem seq_nodup_insert_new (pc : PendingChanges) (ex : WorkoutExercise)
    (key : Int × Nat) (d : NewSetData)
    (hkey : key.1 = ex.id)
    (hfresh : key ∉ pc.newSets.map Prod.fst)
    (hnodup : (seqNumbers (getDisplaySets pc ex)).Nodup)
    (hd : d.set_number = nextSetNumber (getDisplaySets pc ex)) :
    (seqNumbers (getDisplaySets
        { pc with newSets := mapSet key d pc.newSets } ex)).Nodup := by
  have hNewFor :
      newSetsForExercise { pc with newSets := mapSet key d pc.newSets } ex
        = newSetsForExercise pc ex ++ [d.withId (-(Int.ofNat key.2))] := by
    unfold newSetsForExercise
    rw [show ({ pc with newSets := mapSet key d pc.newSets } :
          PendingChanges).newSets = mapSet key d pc.newSets from rfl]
    rw [mapSet_fresh d hfresh, List.filter_append]
    simp [hkey]
  have hdisp : getDisplaySets { pc with newSets := mapSet key d pc.newSets } ex
      = sortBySetNumber ((displaySetsBase pc ex ++ newSetsForExercise pc ex)
          ++ [d.withId (-(Int.ofNat key.2))]) := by
    unfold getDisplaySets
    rw [hNewFor, ← List.append_assoc]
    rfl
  have P0 : List.Perm (getDisplaySets pc ex)
      (displaySetsBase pc ex ++ newSetsForExercise pc ex) :=
    sortBySetNumber_perm _
  have P1 : List.Perm
      (getDisplaySets { pc with newSets := mapSet key d pc.newSets } ex)
      ((displaySetsBase pc ex ++ newSetsForExercise pc ex)
        ++ [d.withId (-(Int.ofNat key.2))]) := by
    rw [hdisp]
    exact sortBySetNumber_perm _
  have PS0 := P0.map (fun s => s.set_number)
  have PS1 := P1.map (fun s => s.set_number)
  unfold seqNumbers at hnodup ⊢
  rw [PS1.nodup_iff, List.map_append, List.nodup_append]
  refine ⟨PS0.nodup_iff.mp hnodup, by simp, ?_⟩
  intro x hx hxn
  have hxw : x = (d.withId (-(Int.ofNat key.2))).set_number := by simpa using hxn
  have hxA : x ∈ (getDisplaySets pc ex).map (fun s => s.set_number) :=
    PS0.mem_iff.mpr hx
  obtain ⟨s, hsA, hxs⟩ := List.mem_map.mp hxA
  have hAne : getDisplaySets pc ex ≠ [] := by
    intro h0
    rw [h0] at hsA
    cases hsA
  have hle : s.set_number ≤ maxSetNumber (getDisplaySets pc ex) :=
    le_maxSetNumber _ s hsA
  have hwseq : (d.withId (-(Int.ofNat key.2))).set_number
      = maxSetNumber (getDisplaySets pc ex) + 1 := by
    show d.set_number = _
    rw [hd]
    unfold nextSetNumber
    rw [if_pos (List.length_pos.mpr hAne)]
  omega

/-- C5 (amended): a newly created set is assigned sequence number
`max(currently displayed sequence numbers) + 1` (or `1` when none are
displayed), and when the displayed sequence numbers of the owning instance
are pairwise distinct they remain pairwise distinct after the creation; the
projection however does not guarantee a minimum displayed number of 1 — a
pending delete of the set numbered 1 leaves the remainder unrenumbered. -/
theorem new_set_sequence_number (convert : Int → Int) (now : String)
    (st : EditorState) (w : WorkoutSummary) (eid : Int) (wv rv : Int)
    (nv : String) (ex : WorkoutExercise)
    (hw : st.workout = some w)
    (hfind : w.exercises.find? (fun e => e.id == eid) = some ex)
    (hfresh : (eid, st.tempSetIdCounter) ∉ st.pendingChanges.newSets.map Prod.fst)
    (hnodup : (seqNumbers (getDisplaySets st.pendingChanges ex)).Nodup) :
    ((mapGet (eid, st.tempSetIdCounter)
        (handleSaveNewSet convert now eid wv rv nv st).pendingChanges.newSets).map
          NewSetData.set_number)
      = some (nextSetNumber (getDisplaySets st.pendingChanges ex))
    ∧ (seqNumbers (getDisplaySets
        (handleSaveNewSet convert now eid wv rv nv st).pendingChanges ex)).Nodup
    ∧ (getDisplaySets st.pendingChanges ex ≠ [] →
        nextSetNumber (getDisplaySets st.pendingChanges ex)
          = maxSetNumber (getDisplaySets st.pendingChanges ex) + 1) := by
  have hid : ex.id = eid := by simpa using List.find?_some hfind
  have hsave : handleSaveNewSet convert now eid wv rv nv st
      = { st with
          tempSetIdCounter := st.tempSetIdCounter + 1,
          pendingChanges :=
            { st.pendingChanges with
              newSets :=
                mapSet (eid, st.tempSetIdCounter)
                  { workout_exercise_id := eid,
                    set_number :=
                      nextSetNumber (getDisplaySets st.pendingChanges ex),
                    weight_lbs := if wv > 0 then some (convert wv) else none,
                    reps := if rv > 0 then some rv else none,
                    duration_seconds := none,
                    distance_miles := none,
                    notes := if jsTrim nv ≠ "" then some (jsTrim nv) else none,
                    completed_at := some now }
                  st.pendingChanges.newSets } } := by
    simp only [handleSaveNewSet, hw, hfind]
  refine ⟨?_, ?_, ?_⟩
  · rw [hsave]
    simp only [mapGet_mapSet_self]
    rfl
  · rw [hsave]
    exact seq_nodup_insert_new st.pendingChanges ex (eid, st.tempSetIdCounter)
      _ hid.symm hfresh hnodup rfl
  · intro hne
    unfold nextSetNumber
    rw [if_pos (List.length_pos.mpr hne)]

theorem new_set_sequence_number_witness :
    ((mapGet ((3 : Int), (1 : Nat))
        (handleSaveNewSet (fun x => x) "t2" 3 100 10 ""
          cleanState1).pendingChanges.newSets).map NewSetData.set_number)
      = some (nextSetNumber (getDisplaySets cleanState1.pendingChanges exercise3))
    ∧ (seqNumbers (getDisplaySets
        (handleSaveNewSet (fun x => x) "t2" 3 100 10 ""
          cleanState1).pendingChanges exercise3)).Nodup :=
  ⟨(new_set_sequence_number (fun x => x) "t2" cleanState1 workout1 3 100 10 ""
      exercise3 rfl rfl (by decide) (by decide)).1,
   (new_set_sequence_number (fun x => x) "t2" cleanState1 workout1 3 100 10 ""
      exercise3 rfl rfl (by decide) (by decide)).2.1⟩

end FitMocha
